import Mathlib

set_option autoImplicit false

universe u

/-! Shallow embedding of the `aoc_tools` utility library (`src/grid.rs`,
`src/pair.rs`, `src/parse.rs`, `src/input.rs`).  Panics are modelled as
`Option.none` (or `Except.error`), `usize` arithmetic as `Nat`, strings as
`List Char`, and file contents as the decoded character list of the file. -/

/-- Embedding of Rust `str::split` with a one-character pattern (and of
`BufRead::split` on a delimiter byte, at the level of decoded characters):
splits the character list at every occurrence of `d`, the delimiter not
included in the fields; always yields at least one (possibly empty) field. -/
def splitOnChar (d : Char) : List Char → List (List Char)
  | [] => [[]]
  | c :: cs =>
    if c = d then [] :: splitOnChar d cs
    else
      match splitOnChar d cs with
      | [] => [[c]]
      | f :: fs => (c :: f) :: fs

/-- Embedding of `Grid<T>` from `src/grid.rs`: a flat row-major vector with
dimensions `len_x` (columns) and `len_y` (rows). -/
structure Grid (T : Type u) where
  flat : List T
  len_x : Nat
  len_y : Nat
deriving DecidableEq

/-- Embedding of `Grid::from_vec`.  The source runs
`debug_assert!(v.len() >= len_x * len_y)` and then `v.truncate(len_x * len_y)`;
the assertion is modelled as a fatal check (`none` models the panic with debug
assertions enabled), truncation as `List.take`. -/
def Grid.from_vec {T : Type u} (len_x len_y : Nat) (v : List T) : Option (Grid T) :=
  if len_x * len_y ≤ v.length then
    some { flat := v.take (len_x * len_y), len_x := len_x, len_y := len_y }
  else
    none

/-- Embedding of the `while iter.peek().is_some()` loop of `Grid::with_borders`:
each pass pushes `thickness` copies of `border`, then up to `len_x` consumed
elements, then `thickness` more copies of `border`.  When `len_x = 0` and
elements remain, the source loop consumes nothing and never terminates; that
divergence is modelled as `none`. -/
def with_borders_loop {T : Type u} (len_x thickness : Nat) (border : T) : List T → Option (List T)
  | [] => some []
  | x :: xs =>
    match len_x with
    | 0 => none
    | n + 1 =>
      (with_borders_loop (n + 1) thickness border (xs.drop n)).map fun rest =>
        List.replicate thickness border ++ (x :: xs.take n) ++ List.replicate thickness border ++ rest
termination_by l => l.length
decreasing_by
  simp only [List.length_drop, List.length_cons]
  omega

/-- Embedding of `Grid::with_borders` (`src/grid.rs`): upper border of
`len * thickness` values with `len = len_x + 2`, the interior loop, then
padding of `(1 + thickness) * len - flat.len() % len` border values, and
finally `Grid::from_vec(len, flat.len() / len, flat)`. -/
def Grid.with_borders {T : Type u} (len_x : Nat) (border : T) (thickness : Nat) (iter : List T) : Option (Grid T) :=
  (with_borders_loop len_x thickness border iter).bind fun body =>
    let len := len_x + 2
    let flat1 := List.replicate (len * thickness) border ++ body
    let flat := flat1 ++ List.replicate ((1 + thickness) * len - flat1.length % len) border
    Grid.from_vec len (flat.length / len) flat

/-- Embedding of the private `Grid::index`: flat index `self.len_x * y + x`. -/
def Grid.index {T : Type u} (g : Grid T) (x y : Nat) : Nat :=
  g.len_x * y + x

/-- Embedding of `Grid::get`: `self.flat.get(self.index(x, y)).unwrap()`;
`none` models the panic of `unwrap` on an out-of-range flat index. -/
def Grid.get {T : Type u} (g : Grid T) (x y : Nat) : Option T :=
  g.flat.get? (g.index x y)

/-- Embedding of `Grid::get_mut`: the value behind the returned `&mut`
reference, which points at flat index `index(x, y)`; `none` models the panic of
`&mut self.flat[i]` on an out-of-range flat index. -/
def Grid.get_mut {T : Type u} (g : Grid T) (x y : Nat) : Option T :=
  g.flat.get? (g.index x y)

/-- Embedding of `Grid::get_flat`: `&self.flat[idx]`, `none` models the panic. -/
def Grid.get_flat {T : Type u} (g : Grid T) (idx : Nat) : Option T :=
  g.flat.get? idx

/-- Writing through the reference returned by `Grid::get_mut`: replaces the
cell at flat index `index(x, y)`. -/
def Grid.set_xy {T : Type u} (g : Grid T) (x y : Nat) (v : T) : Grid T :=
  { g with flat := g.flat.set (g.index x y) v }

/-- Writing through the reference returned by `Grid::get_flat_mut`: replaces
the cell at flat index `idx`. -/
def Grid.set_flat {T : Type u} (g : Grid T) (idx : Nat) (v : T) : Grid T :=
  { g with flat := g.flat.set idx v }

/-- Embedding of `Grid::xy_index`: `(idx % self.len_x, idx / self.len_x)`. -/
def Grid.xy_index {T : Type u} (g : Grid T) (idx : Nat) : Nat × Nat :=
  (idx % g.len_x, idx / g.len_x)

/-- Embedding of `Pair<U>` from `src/pair.rs`. -/
structure Pair (U : Type u) where
  x : U
  y : U
deriving DecidableEq

/-- Embedding of `Pair::distance_manhattan`.  Rust `+` and `-` share precedence
and associate to the left, so the source expression
`max - min + max - min` parses as `((max - min) + max) - min`, reproduced
verbatim (Lean's `+`/`-` associate the same way). -/
def Pair.distance_manhattan {U : Type u} [LinearOrder U] [Add U] [Sub U] (p q : Pair U) : U :=
  max p.x q.x - min p.x q.x + max p.y q.y - min p.y q.y

/-- Embedding of `Pair::distance_squared`: per-axis absolute difference via
`max`/`min`, then `a * a + b * b`. -/
def Pair.distance_squared {U : Type u} [LinearOrder U] [Add U] [Sub U] [Mul U] (p q : Pair U) : U :=
  let a := max p.x q.x - min p.x q.x
  let b := max p.y q.y - min p.y q.y
  a * a + b * b

/-- Error cases of `<Pair<U> as FromStr>::from_str`: the two `ok_or` messages
("Could not parse the number before/after the comma.") and the propagated
(`?`) failure of `parse::<U>` on the first or the second field. -/
inductive PairErr : Type
  | missingBeforeComma
  | missingAfterComma
  | parseErrX
  | parseErrY
deriving DecidableEq

/-- Embedding of `<Pair<U> as FromStr>::from_str`: split on `','`, take the
first field with `iter.next()` and parse it, then the second.  The component
parser `parseU` stands for `U::from_str` (`none` models an `Err` from
`parse::<U>`). -/
def Pair.from_str {U : Type u} (parseU : List Char → Option U) (s : List Char) : Except PairErr (Pair U) :=
  match splitOnChar ',' s with
  | [] => Except.error PairErr.missingBeforeComma
  | f0 :: rest =>
    match parseU f0 with
    | none => Except.error PairErr.parseErrX
    | some x =>
      match rest with
      | [] => Except.error PairErr.missingAfterComma
      | f1 :: _ =>
        match parseU f1 with
        | none => Except.error PairErr.parseErrY
        | some y => Except.ok { x := x, y := y }

/-- Helper for `i32::from_str`: the value of a non-empty all-digit character
list, `none` otherwise. -/
def digitsToNat : List Char → Option Nat
  | [] => none
  | l => l.foldl (fun acc c => acc.bind fun n => if c.isDigit then some (n * 10 + (c.toNat - 48)) else none) (some 0)

/-- Embedding of `i32::from_str` (as used by `s.parse::<i32>()`): an optional
leading sign followed by one or more ASCII decimal digits, with the value
inside the `i32` range. -/
def parseI32 (s : List Char) : Option Int :=
  match s with
  | '+' :: rest => (digitsToNat rest).bind fun n => if n ≤ 2147483647 then some (n : Int) else none
  | '-' :: rest => (digitsToNat rest).bind fun n => if n ≤ 2147483648 then some (-(n : Int)) else none
  | _ => (digitsToNat s).bind fun n => if n ≤ 2147483647 then some (n : Int) else none

/-- Strips one trailing carriage return from a line, as Rust's line iterators
do. -/
def stripCR (l : List Char) : List Char :=
  if l.getLast? = some '\r' then l.dropLast else l

/-- Embedding of Rust `str::lines` (and of `BufRead::lines` over the file's
decoded contents): split on `'\n'`, drop the final empty field produced by a
trailing newline, and strip one trailing `'\r'` from each line. -/
def rustLines (s : List Char) : List (List Char) :=
  let fields := splitOnChar '\n' s
  let fields := if fields.getLast? = some [] then fields.dropLast else fields
  fields.map stripCR

/-- Embedding of `parse::lines_into_vec` (`src/parse.rs`):
`text.lines().flat_map(str::parse::<T>).collect()` — every line is fed to the
parser and parse failures are dropped. -/
def lines_into_vec {T : Type u} (parseT : List Char → Option T) (text : List Char) : List T :=
  (rustLines text).filterMap parseT

/-- Embedding of `parse::split_into_vec` (`src/parse.rs`) with a one-character
split pattern: `input.split(split_at).flat_map(str::parse::<T>).collect()` —
every field, empty ones included, is fed to the parser; parse failures are
dropped. -/
def split_into_vec {T : Type u} (parseT : List Char → Option T) (split_at : Char) (input : List Char) : List T :=
  (splitOnChar split_at input).filterMap parseT

/-- Embedding of `input::split_to_vec` (`src/input.rs`) over the file's decoded
contents: split on the delimiter byte, `filter(|v| !v.is_empty())` drops empty
chunks, the rest are parsed and parse failures dropped (UTF-8 decoding, always
successful at this character level, is modelled away). -/
def split_to_vec {T : Type u} (parseT : List Char → Option T) (split_bit : Char) (content : List Char) : List T :=
  ((splitOnChar split_bit content).filter (fun f => !f.isEmpty)).filterMap parseT

/-- Embedding of `input::lines_parsed_explicit` (`src/input.rs`) over the
file's decoded contents: one parse result per line, parse errors preserved
(`none` models a `Result::Err` entry; I/O succeeds throughout). -/
def lines_parsed_explicit {T : Type u} (parseT : List Char → Option T) (content : List Char) : List (Option T) :=
  (rustLines content).map parseT

/-- Splitting never yields the empty field list: `str::split` always produces
at least one (possibly empty) field. -/
theorem splitOnChar_ne_nil (d : Char) (l : List Char) : splitOnChar d l ≠ [] := by
  induction l with
  | nil => simp [splitOnChar]
  | cons c cs ih =>
    unfold splitOnChar
    by_cases h : c = d
    · simp [h]
    · simp only [h, if_false]
      cases splitOnChar d cs <;> simp

/-- Splitting a string that does not contain the delimiter yields the single
field equal to the whole string. -/
theorem splitOnChar_eq_single (d : Char) (l : List Char) (h : d ∉ l) : splitOnChar d l = [l] := by
  induction l with
  | nil => rfl
  | cons c cs ih =>
    unfold splitOnChar
    have hc : ¬ c = d := fun he => h (he ▸ List.mem_cons_self c cs)
    rw [if_neg hc, ih (fun hm => h (List.mem_cons_of_mem c hm))]

/-- Claim C1: the stated border property fails on the code for any thickness
other than 1, because `with_borders` hardcodes the row width `len = len_x + 2`
instead of `len_x + 2 * thickness`.  At `len_x = 1`, `border = 0`,
`thickness = 2`, input `[7]`, the produced grid has rows of length 3, not
`1 + 2·2 = 5`, and the interior element 7 is stored at column 2 of row 2 —
inside the declared two-column right and top borders — contradicting both the
claim and the function's own border comments. -/
theorem C1_with_borders_row_width_bug :
    Grid.with_borders 1 (0 : Nat) 2 [7] =
      some { flat := [0, 0, 0, 0, 0, 0, 0, 0, 7, 0, 0, 0, 0, 0, 0, 0, 0, 0], len_x := 3, len_y := 6 } ∧
    Grid.get { flat := [0, 0, 0, 0, 0, 0, 0, 0, 7, 0, 0, 0, 0, 0, 0, 0, 0, 0], len_x := 3, len_y := 6 } 2 2 = some 7 ∧
    (3 : Nat) ≠ 1 + 2 * 2 := by
  have hloop : with_borders_loop 1 2 (0 : Nat) [7] = some [0, 0, 7, 0, 0] := by
    simp [with_borders_loop]
  refine ⟨?_, by decide, by decide⟩
  unfold Grid.with_borders
  rw [hloop]
  rfl

/-- Claim C2: out-of-range access does not always panic.  On the 2×2 grid over
`[10, 11, 12, 13]`, `get(2, 0)` and `get_mut(2, 0)` — with `x = 2 ≥ len_x` —
return the value 12 stored at cell `(0, 1)` of the next row instead of
panicking, because the flat index `len_x·0 + 2 = 2` is still inside the
backing vector: an out-of-range `x` is silently wrapped into a different row,
contradicting the claim and the function's own `# Panics` documentation. -/
theorem C2_get_out_of_range_wraps :
    Grid.get { flat := [10, 11, 12, 13], len_x := 2, len_y := 2 } 2 0 = some 12 ∧
    Grid.get_mut { flat := [10, 11, 12, 13], len_x := 2, len_y := 2 } 2 0 = some 12 ∧
    Grid.get { flat := [10, 11, 12, 13], len_x := 2, len_y := 2 } 0 1 = some 12 := by
  decide

/-- Claim C3: counterexample to "fails with an error for every other string,
including strings with more than two comma-separated fields" — the string
`"1,2,3"` has three comma-separated fields yet parses successfully to
`(1, 2)`; the third field is silently ignored. -/
theorem C3_extra_fields_accepted :
    Pair.from_str parseI32 ("1,2,3".data) = Except.ok { x := 1, y := 2 } := rfl

/-- Claim C3 (amended): parsing a `Pair<U>` from a string succeeds exactly when
the comma-split of the string has at least two fields and the first two fields
both parse as `U`; fields beyond the second are ignored rather than
rejected. -/
theorem C3_from_str_success_iff {U : Type u} (parseU : List Char → Option U) (s : List Char) :
    (∃ p, Pair.from_str parseU s = Except.ok p) ↔
      ∃ f0 f1 rest, splitOnChar ',' s = f0 :: f1 :: rest ∧
        (parseU f0).isSome = true ∧ (parseU f1).isSome = true := by
  constructor
  · rintro ⟨p, hp⟩
    cases h : splitOnChar ',' s with
    | nil => exact absurd h (splitOnChar_ne_nil ',' s)
    | cons f0 rest =>
      cases hx : parseU f0 with
      | none => simp [Pair.from_str, h, hx] at hp
      | some x =>
        cases rest with
        | nil => simp [Pair.from_str, h, hx] at hp
        | cons f1 rest2 =>
          cases hy : parseU f1 with
          | none => simp [Pair.from_str, h, hx, hy] at hp
          | some y => exact ⟨f0, f1, rest2, rfl, by simp [hx], by simp [hy]⟩
  · rintro ⟨f0, f1, rest, h, hx, hy⟩
    obtain ⟨x, hx⟩ := Option.isSome_iff_exists.mp hx
    obtain ⟨y, hy⟩ := Option.isSome_iff_exists.mp hy
    exact ⟨{ x := x, y := y }, by simp [Pair.from_str, h, hx, hy]⟩

/-- Claim C4: `from_vec` fails (the debug assertion panics) whenever the input
vector has fewer than `len_x * len_y` elements, and every grid it does return
has flat storage of length exactly `len_x * len_y`. -/
theorem C4_from_vec_requires_enough {T : Type u} (len_x len_y : Nat) (v : List T) :
    (v.length < len_x * len_y → Grid.from_vec len_x len_y v = none) ∧
    (∀ g : Grid T, Grid.from_vec len_x len_y v = some g → g.flat.length = len_x * len_y) := by
  constructor
  · intro h
    unfold Grid.from_vec
    rw [if_neg (by omega)]
  · intro g hg
    unfold Grid.from_vec at hg
    by_cases h : len_x * len_y ≤ v.length
    · rw [if_pos h] at hg
      cases hg
      rw [List.length_take]
      exact Nat.min_eq_left h
    · rw [if_neg h] at hg
      cases hg

/-- Claim C4 witness: a 3-element vector is too short for a 2×2 grid and
construction fails. -/
theorem C4_from_vec_requires_enough_witness :
    Grid.from_vec 2 2 ([10, 11, 12] : List Nat) = none :=
  (C4_from_vec_requires_enough 2 2 [10, 11, 12]).1 (by decide)

/-- Claim C5: `from_vec` with exactly `len_x * len_y` elements keeps the vector
unchanged as the row-major storage; with more elements it keeps exactly the
first `len_x * len_y` elements in order, discarding only the trailing
excess. -/
theorem C5_from_vec_preserves {T : Type u} (len_x len_y : Nat) (v : List T) :
    (v.length = len_x * len_y →
      Grid.from_vec len_x len_y v = some { flat := v, len_x := len_x, len_y := len_y }) ∧
    (len_x * len_y ≤ v.length →
      Grid.from_vec len_x len_y v = some { flat := v.take (len_x * len_y), len_x := len_x, len_y := len_y }) := by
  constructor
  · intro h
    unfold Grid.from_vec
    rw [if_pos (Nat.le_of_eq h.symm)]
    simp [← h, List.take_length]
  · intro h
    unfold Grid.from_vec
    rw [if_pos h]

/-- Claim C5 witness: an exact-size vector is kept unchanged and a longer one
is truncated from the tail only. -/
theorem C5_from_vec_preserves_witness :
    Grid.from_vec 2 1 ([5, 6] : List Nat) = some { flat := [5, 6], len_x := 2, len_y := 1 } ∧
    Grid.from_vec 2 1 ([5, 6, 7] : List Nat) = some { flat := [5, 6], len_x := 2, len_y := 1 } :=
  ⟨(C5_from_vec_preserves 2 1 [5, 6]).1 (by decide),
   ((C5_from_vec_preserves 2 1 [5, 6, 7]).2 (by decide)).trans (by decide)⟩

/-- Claim C6: for valid coordinates `x < len_x`, `y < len_y`, both `get` and
`get_mut` (reads and writes alike) address the same cell as
`get_flat(y * len_x + x)`, and `xy_index` is the exact inverse of the
coordinate-to-flat-index map on `[0, len_x * len_y)`. -/
theorem C6_coordinate_flat_consistency {T : Type u} (g : Grid T) (x y idx : Nat)
    (hx : x < g.len_x) (_hy : y < g.len_y) (_hidx : idx < g.len_x * g.len_y) :
    g.get x y = g.get_flat (y * g.len_x + x) ∧
    g.get_mut x y = g.get_flat (y * g.len_x + x) ∧
    (∀ v, g.set_xy x y v = g.set_flat (y * g.len_x + x) v) ∧
    g.xy_index (g.index x y) = (x, y) ∧
    g.index (g.xy_index idx).1 (g.xy_index idx).2 = idx := by
  have h0 : 0 < g.len_x := Nat.lt_of_le_of_lt (Nat.zero_le x) hx
  refine ⟨?_, ?_, ?_, ?_, ?_⟩
  · unfold Grid.get Grid.get_flat Grid.index
    rw [Nat.mul_comm]
  · unfold Grid.get_mut Grid.get_flat Grid.index
    rw [Nat.mul_comm]
  · intro v
    unfold Grid.set_xy Grid.set_flat Grid.index
    rw [Nat.mul_comm]
  · unfold Grid.xy_index Grid.index
    simp [Prod.mk.injEq, Nat.mul_add_mod, Nat.mod_eq_of_lt hx, Nat.mul_add_div h0,
      Nat.div_eq_of_lt hx]
  · unfold Grid.xy_index Grid.index
    exact Nat.div_add_mod idx g.len_x

/-- Claim C6 witness: on a concrete 3×2 grid, `get(2, 1)` reads the same cell
as `get_flat(1·3 + 2)`. -/
theorem C6_coordinate_flat_consistency_witness :
    Grid.get { flat := ([0, 1, 2, 3, 4, 5] : List Nat), len_x := 3, len_y := 2 } 2 1 =
      Grid.get_flat { flat := ([0, 1, 2, 3, 4, 5] : List Nat), len_x := 3, len_y := 2 } (1 * 3 + 2) :=
  (C6_coordinate_flat_consistency { flat := [0, 1, 2, 3, 4, 5], len_x := 3, len_y := 2 }
    2 1 4 (by decide) (by decide) (by decide)).1

/-- Claim C7: for every component type with ordering, addition, subtraction
(and multiplication) in which `u - u = 0`, `0 * 0 = 0` and `0 + 0 = 0` — as in
every ordinary numeric type, unsigned ones included, where the `max`/`min`
composition prevents underflow — `distance_manhattan` is symmetric and
`distance_squared(a, a) = 0`. -/
theorem C7_distance_symm_and_self {U : Type u} [LinearOrder U] [Add U] [Sub U] [Mul U] [Zero U]
    (hsub : ∀ u : U, u - u = 0) (hmul : (0 : U) * 0 = 0) (hadd : (0 : U) + 0 = 0) :
    (∀ a b : Pair U, a.distance_manhattan b = b.distance_manhattan a) ∧
    (∀ a : Pair U, a.distance_squared a = 0) := by
  constructor
  · intro a b
    unfold Pair.distance_manhattan
    rw [max_comm a.x b.x, min_comm a.x b.x, max_comm a.y b.y, min_comm a.y b.y]
  · intro a
    unfold Pair.distance_squared
    simp only [max_self, min_self, hsub, hmul, hadd]

/-- Claim C7 witness: concrete instances over the unsigned type `Nat`. -/
theorem C7_distance_symm_and_self_witness :
    ({ x := 1, y := 5 } : Pair Nat).distance_manhattan { x := 2, y := 3 } =
      ({ x := 2, y := 3 } : Pair Nat).distance_manhattan { x := 1, y := 5 } ∧
    ({ x := 4, y := 9 } : Pair Nat).distance_squared { x := 4, y := 9 } = 0 :=
  ⟨(C7_distance_symm_and_self (fun u => Nat.sub_self u) (by decide) (by decide)).1 _ _,
   (C7_distance_symm_and_self (fun u => Nat.sub_self u) (by decide) (by decide)).2 _⟩

/-- Claim C8: parsing `"1\n2\nx\n4"` line-by-line into `i32` with the silent
eager helper yields exactly `[1, 2, 4]` (the malformed line `"x"` dropped),
and the explicit-error variant yields exactly four results of which the third
and only the third is a parse error. -/
theorem C8_example_lines :
    lines_into_vec parseI32 ("1\n2\nx\n4".data) = [1, 2, 4] ∧
    lines_parsed_explicit parseI32 ("1\n2\nx\n4".data) = [some 1, some 2, none, some 4] :=
  ⟨rfl, rfl⟩

/-- Claim C9: counterexample — with the infallible `String` component parser,
the string-based eager helper `split_into_vec` on input `"a,,b"` split at `','`
returns three entries, and the empty middle field DOES contribute the entry
`""`, so not every eager to-collection helper restricts parsing to non-empty
fields. -/
theorem C9_split_into_vec_keeps_empty :
    split_into_vec (fun l => some l) ',' ("a,,b".data) = [['a'], [], ['b']] ∧
    ([] : List Char) ∈ split_into_vec (fun l => some l) ',' ("a,,b".data) := by
  refine ⟨rfl, ?_⟩
  rw [(rfl : split_into_vec (fun l => some l) ',' ("a,,b".data) = [['a'], [], ['b']])]
  decide

/-- Claim C9 (amended): the file-based byte-split eager helper `split_to_vec`
parses only the non-empty fields of the split — every returned entry comes from
a non-empty field — whereas the string-based eager helper `split_into_vec`
feeds every field to the parser: when the target type rejects the empty string
every entry still comes from a non-empty field, but when it parses the empty
string successfully, an empty field does contribute an entry. -/
theorem C9_empty_field_handling {T : Type u} (parseT : List Char → Option T) (d : Char) (input : List Char) :
    (∀ z ∈ split_to_vec parseT d input,
        ∃ f ∈ splitOnChar d input, f ≠ [] ∧ parseT f = some z) ∧
    (parseT [] = none →
      ∀ z ∈ split_into_vec parseT d input,
        ∃ f ∈ splitOnChar d input, f ≠ [] ∧ parseT f = some z) ∧
    (∀ v, parseT [] = some v → [] ∈ splitOnChar d input →
      v ∈ split_into_vec parseT d input) := by
  refine ⟨?_, ?_, ?_⟩
  · intro z hz
    unfold split_to_vec at hz
    rw [List.mem_filterMap] at hz
    obtain ⟨f, hf, hp⟩ := hz
    rw [List.mem_filter] at hf
    refine ⟨f, hf.1, ?_, hp⟩
    simpa using hf.2
  · intro hnone z hz
    unfold split_into_vec at hz
    rw [List.mem_filterMap] at hz
    obtain ⟨f, hf, hp⟩ := hz
    refine ⟨f, hf, ?_, hp⟩
    rintro rfl
    rw [hnone] at hp
    cases hp
  · intro v hv hmem
    unfold split_into_vec
    rw [List.mem_filterMap]
    exact ⟨[], hmem, hv⟩

/-- Claim C9 witness: with the infallible `String` parser, the empty field of
`"x,,y"` contributes an entry to `split_into_vec`. -/
theorem C9_empty_field_handling_witness :
    ([] : List Char) ∈ split_into_vec (fun l => some l) ',' ("x,,y".data) :=
  (C9_empty_field_handling (fun l => some l) ',' ("x,,y".data)).2.2 [] rfl (by decide)

/-- Claim C10: the first error branch of `Pair`'s string parser ("Could not
parse the number before the comma.") is unreachable, since splitting always
yields at least one field; a string containing no comma fails either with the
component parse error on the whole string or with the missing-second-field
error, never with the missing-first-field error. -/
theorem C10_first_error_branch_unreachable {U : Type u} (parseU : List Char → Option U) (s : List Char) :
    Pair.from_str parseU s ≠ Except.error PairErr.missingBeforeComma ∧
    (',' ∉ s →
      (parseU s = none ∧ Pair.from_str parseU s = Except.error PairErr.parseErrX) ∨
      ((parseU s).isSome = true ∧ Pair.from_str parseU s = Except.error PairErr.missingAfterComma)) := by
  constructor
  · intro hcontra
    cases h : splitOnChar ',' s with
    | nil => exact splitOnChar_ne_nil ',' s h
    | cons f0 rest =>
      cases hx : parseU f0 with
      | none => simp [Pair.from_str, h, hx] at hcontra
      | some x =>
        cases rest with
        | nil => simp [Pair.from_str, h, hx] at hcontra
        | cons f1 rest2 =>
          cases hy : parseU f1 with
          | none => simp [Pair.from_str, h, hx, hy] at hcontra
          | some y => simp [Pair.from_str, h, hx, hy] at hcontra
  · intro hnc
    have hs := splitOnChar_eq_single ',' s hnc
    cases hx : parseU s with
    | none =>
      refine Or.inl ⟨rfl, ?_⟩
      simp [Pair.from_str, hs, hx]
    | some x =>
      refine Or.inr ⟨rfl, ?_⟩
      simp [Pair.from_str, hs, hx]

/-- Claim C10 witness: the comma-free string `"ab"` fails with the component
parse error or the missing-second-field error, not the first branch. -/
theorem C10_first_error_branch_unreachable_witness :
    (parseI32 ("ab".data) = none ∧ Pair.from_str parseI32 ("ab".data) = Except.error PairErr.parseErrX) ∨
    ((parseI32 ("ab".data)).isSome = true ∧ Pair.from_str parseI32 ("ab".data) = Except.error PairErr.missingAfterComma) :=
  (C10_first_error_branch_unreachable parseI32 ("ab".data)).2 (by decide)
